import Mathlib

/- Shallow embedding of the sample-processing and voice-management core of
   src/wav-midi-instrument-qt6.py (class WavInstrumentApp).

   Conventions of the embedding:
   - Python floats are modelled as rationals (ℚ); numpy int16 values as ℤ with an
     explicit wrap into [-32768, 32767].
   - Python dicts (processed_sounds, active_notes) are association lists with
     insert-replace semantics, as in CPython.
   - External collaborators (scipy.signal.resample, pygame channel acquisition,
     pygame.mixer.Sound construction) are parameters of the functions that call them;
     the core only relies on the resampler returning the requested number of samples.
   - Stateful methods become pure functions returning the new state together with the
     list of calls issued against the audio output and the status text displayed. -/

/-- One decoded MIDI event: the dispatch target chosen by midi_callback. -/
inductive MidiEvent : Type
  | noteOn (note velocity channel : Nat)
  | noteOff (note : Nat)
  deriving DecidableEq, Repr

/-- The decoder logic of midi_callback (source lines 229-245): a message shorter than
    3 bytes yields nothing; status, note and velocity are the first three bytes;
    channel is status AND 0x0F, i.e. status mod 16; note-on dispatches to play_note
    when ((0x90 <= status <= 0x9F) or status == 0x98) and velocity > 0; note-off
    dispatches to stop_note when (0x80 <= status <= 0x8F) or (status == 0x98 and
    velocity == 0). -/
def midi_callback (msg : List Nat) : Option MidiEvent :=
  match msg with
  | status :: note :: velocity :: _ =>
    if ((0x90 ≤ status ∧ status ≤ 0x9F) ∨ status = 0x98) ∧ 0 < velocity then
      some (MidiEvent.noteOn note velocity (status % 16))
    else if (0x80 ≤ status ∧ status ≤ 0x8F) ∨ (status = 0x98 ∧ velocity = 0) then
      some (MidiEvent.noteOff note)
    else
      none
  | _ => none

/-- Lookup in an association-list model of a Python dict keyed by MIDI note. -/
def dictLookup {α : Type} (k : Nat) : List (Nat × α) → Option α
  | [] => none
  | (k', v) :: rest => if k = k' then some v else dictLookup k rest

/-- Python dict assignment d[k] = v: replaces the existing binding in place, else appends. -/
def dictInsert {α : Type} (k : Nat) (v : α) : List (Nat × α) → List (Nat × α)
  | [] => [(k, v)]
  | (k', v') :: rest =>
      if k = k' then (k, v) :: rest else (k', v') :: dictInsert k v rest

/-- Python del d[k]. -/
def dictErase {α : Type} (k : Nat) : List (Nat × α) → List (Nat × α)
  | [] => []
  | (k', v') :: rest => if k = k' then rest else (k', v') :: dictErase k rest

/-- The keys of a dict model, in order. -/
def dictKeys {α : Type} (d : List (Nat × α)) : List Nat := d.map Prod.fst

/-- Calls issued against the pygame.mixer audio-output capability. -/
inductive AudioCall : Type
  | setVolume (note : Nat) (gain : ℚ)
  | play (channel note : Nat) (gain : ℚ)
  | stop (channel : Nat)
  deriving DecidableEq

/-- Status text written to the debug labels (observational output only). -/
inductive AppStatus : Type
  | playing (note velocity : Nat)
  | noFreeChannels
  | noSoundProcessed (note : Nat)
  | stopped (note : Nat)
  | processed (count minN maxN : Nat)
  | pleaseLoadFirst
  | unchanged
  deriving DecidableEq, Repr

/-- The mutable core state of WavInstrumentApp that the claims are about:
    processed_sounds (note to 16-bit buffer), active_notes (note to channel handle),
    and the master-volume slider value (an integer 0..100 from the Qt slider). -/
structure AppState where
  processedSounds : List (Nat × List Int)
  activeNotes : List (Nat × Nat)
  sliderValue : Nat
  deriving DecidableEq

/-- The master volume derived from the slider, self.volume_slider.value() / 100
    (source lines 225 and 250). -/
def masterVolume (sliderValue : Nat) : ℚ := (sliderValue : ℚ) / 100

/-- play_note (source lines 247-263). Channel acquisition (pygame.mixer.find_channel)
    is external; its result is the freeChannel argument. If the note has no processed
    sound, nothing happens but a report. Otherwise the gain (velocity / 127) *
    (slider / 100) is computed; with a free channel the sound volume is set, the
    channel plays it, and active_notes[note] is assigned the channel; with no free
    channel nothing is played and "No free channels available" is reported. -/
def play_note (st : AppState) (note velocity : Nat) (freeChannel : Option Nat) :
    AppState × List AudioCall × AppStatus :=
  match dictLookup note st.processedSounds with
  | some _ =>
      let volume : ℚ := ((velocity : ℚ) / 127) * masterVolume st.sliderValue
      match freeChannel with
      | some ch =>
          ({ st with activeNotes := dictInsert note ch st.activeNotes },
            [AudioCall.setVolume note volume, AudioCall.play ch note volume],
            AppStatus.playing note velocity)
      | none => (st, [], AppStatus.noFreeChannels)
  | none => (st, [], AppStatus.noSoundProcessed note)

/-- stop_note (source lines 265-273): if the note is active, stop its channel and
    delete the entry; otherwise do nothing. -/
def stop_note (st : AppState) (note : Nat) : AppState × List AudioCall × AppStatus :=
  match dictLookup note st.activeNotes with
  | some ch =>
      ({ st with activeNotes := dictErase note st.activeNotes },
        [AudioCall.stop ch], AppStatus.stopped note)
  | none => (st, [], AppStatus.unchanged)

/-- Truncation of a rational toward zero: the direction of the Python/numpy
    float-to-integer cast used by np.int16. -/
def ratTrunc (q : ℚ) : Int := if 0 ≤ q then q.floor else -((-q).floor)

/-- Two's-complement reduction of an integer into the int16 range: the numpy int16
    cast wraps out-of-range values, it does not clamp them. -/
def int16wrap (z : Int) : Int := (z + 32768) % 65536 - 32768

/-- np.int16(x * 32767) on one sample value (source line 207): scale by 32767,
    truncate toward zero, wrap into 16 bits. -/
def toInt16np (x : ℚ) : Int := int16wrap (ratTrunc (x * 32767))

/-- Modelled from the spec words for comparison (the conversion the spec asserts):
    scale by 32767, truncate, and saturate at plus/minus 32767. -/
def specClamp (x : ℚ) : Int := max (-32767) (min 32767 (ratTrunc (x * 32767)))

/-- new_length = int(original_length / pitch_ratio) (source line 204) with
    pitch_ratio = 2 ^ ((n - base) / 12) in 12-tone equal temperament (the 440 and
    2 ^ ((note - 69) / 12) factors of lines 194 and 200 cancel in the ratio).
    Over the reals, for d = n - base >= 0 the value floor (L / 2 ^ (d / 12)) is the
    greatest m with m ^ 12 * 2 ^ d <= L ^ 12, and for d = base - n >= 0 the value
    floor (L * 2 ^ (d / 12)) is the greatest m with m ^ 12 <= L ^ 12 * 2 ^ d
    (x maps to x ^ 12 is strictly monotone on naturals); that characterization makes
    the definition executable. The search bound L * 2 ^ (d / 12 + 1) dominates any
    solution m because m ^ 12 <= L ^ 12 * 2 ^ d <= (L * 2 ^ (d / 12 + 1)) ^ 12. -/
def newLength (L base n : Nat) : Nat :=
  if base ≤ n then
    Nat.findGreatest (fun m => m ^ 12 * 2 ^ (n - base) ≤ L ^ 12) L
  else
    Nat.findGreatest (fun m => m ^ 12 ≤ L ^ 12 * 2 ^ (base - n)) (L * 2 ^ ((base - n) / 12 + 1))

/-- The per-note body of process_sample (source lines 200-207): resample the base
    waveform to the new length, then convert each sample with np.int16(x * 32767).
    The resampler (scipy.signal.resample) is an external collaborator passed as an
    argument; the core relies only on it returning the requested number of samples. -/
def processNote (resample : List ℚ → Nat → List ℚ) (sample : List ℚ) (base note : Nat) :
    List Int :=
  (resample sample (newLength sample.length base note)).map toInt16np

/-- process_sample (source lines 187-222): with no base sample, report and leave the
    state alone; otherwise processed_sounds.clear() runs first, then every note of
    range(min_note, max_note + 1) is processed, where pygame.mixer.Sound construction
    may fail (the except branch skips that note), modelled by the soundOk predicate.
    The returned pair is the new cache and the reported status. -/
def process_sample (resample : List ℚ → Nat → List ℚ) (soundOk : Nat → Bool)
    (prior : List (Nat × List Int)) (baseSample : Option (List ℚ))
    (baseNote minNote maxNote : Nat) : List (Nat × List Int) × AppStatus :=
  match baseSample with
  | none => (prior, AppStatus.pleaseLoadFirst)
  | some s =>
      let notes := (List.range (maxNote + 1 - minNote)).map (fun i => minNote + i)
      let cache := notes.filterMap (fun n =>
        if soundOk n then some (n, processNote resample s baseNote n) else none)
      (cache, AppStatus.processed cache.length minNote maxNote)

/-- np.max(np.abs(audio_data)) over the waveform. -/
def audioPeak (audio : List ℚ) : ℚ := (audio.map (fun x => |x|)).foldr max 0

/-- The normalization step of load_sample (source line 173):
    audio_data /= np.max(np.abs(audio_data)), with no guard against a zero divisor
    (in ℚ a division by zero returns zero; in numpy it returns NaN). -/
def load_sample (audio : List ℚ) : List ℚ := audio.map (fun x => x / audioPeak audio)

/-- A stand-in resampler used for concrete evaluations: returns the requested number
    of zero samples (any resampler honouring the requested length fits the core). -/
def resampleZero : List ℚ → Nat → List ℚ := fun _ n => List.replicate n 0

/-- A stand-in resampler exhibiting resampling overshoot: every output sample is 1.1,
    larger in magnitude than the normalized input peak. -/
def resampleOver : List ℚ → Nat → List ℚ := fun _ n => List.replicate n (11 / 10)

/-- A concrete ten-sample normalized base waveform. -/
def tenSamples : List ℚ := List.replicate 10 1

/-- A concrete app state: note 60 processed, note 60 active on channel 2, slider at 80. -/
def demoState : AppState :=
  { processedSounds := [(60, [0])], activeNotes := [(60, 2)], sliderValue := 80 }

/-! ### Dictionary lemmas -/

theorem dictLookup_insert_self {α : Type} (k : Nat) (v : α) (d : List (Nat × α)) :
    dictLookup k (dictInsert k v d) = some v := by
  induction d with
  | nil => simp [dictInsert, dictLookup]
  | cons hd tl ih =>
      obtain ⟨k', v'⟩ := hd
      by_cases h : k = k'
      · simp [dictInsert, dictLookup, h]
      · simp [dictInsert, dictLookup, h, ih]

theorem dictLookup_insert_ne {α : Type} {k j : Nat} (v : α) (d : List (Nat × α))
    (h : j ≠ k) : dictLookup j (dictInsert k v d) = dictLookup j d := by
  induction d with
  | nil => simp [dictInsert, dictLookup, h]
  | cons hd tl ih =>
      obtain ⟨k', v'⟩ := hd
      by_cases hk : k = k'
      · subst hk
        simp [dictInsert, dictLookup, h]
      · by_cases hj : j = k'
        · simp [dictInsert, dictLookup, hk, hj]
        · simp [dictInsert, dictLookup, hk, hj, ih]

theorem dictInsert_cons_self {α : Type} (k : Nat) (v v' : α) (tl : List (Nat × α)) :
    dictInsert k v ((k, v') :: tl) = (k, v) :: tl := by
  simp [dictInsert]

theorem dictInsert_cons_ne {α : Type} {k k' : Nat} (v v' : α) (tl : List (Nat × α))
    (h : k ≠ k') : dictInsert k v ((k', v') :: tl) = (k', v') :: dictInsert k v tl := by
  simp [dictInsert, h]

theorem dictKeys_cons {α : Type} (k : Nat) (v : α) (tl : List (Nat × α)) :
    dictKeys ((k, v) :: tl) = k :: dictKeys tl := rfl

theorem mem_dictKeys_insert {α : Type} {a k : Nat} {v : α} {d : List (Nat × α)} :
    a ∈ dictKeys (dictInsert k v d) ↔ a = k ∨ a ∈ dictKeys d := by
  induction d with
  | nil => simp [dictInsert, dictKeys]
  | cons hd tl ih =>
      obtain ⟨k', v'⟩ := hd
      by_cases h : k = k'
      · subst h
        rw [dictInsert_cons_self, dictKeys_cons, dictKeys_cons]
        simp only [List.mem_cons]
        tauto
      · rw [dictInsert_cons_ne _ _ _ h, dictKeys_cons, dictKeys_cons]
        simp only [List.mem_cons]
        tauto

theorem dictKeys_insert_nodup {α : Type} (k : Nat) (v : α) (d : List (Nat × α))
    (hd : (dictKeys d).Nodup) : (dictKeys (dictInsert k v d)).Nodup := by
  induction d with
  | nil => simp [dictInsert, dictKeys]
  | cons hd' tl ih =>
      obtain ⟨k', v'⟩ := hd'
      rw [dictKeys_cons, List.nodup_cons] at hd
      by_cases h : k = k'
      · subst h
        rw [dictInsert_cons_self, dictKeys_cons, List.nodup_cons]
        exact hd
      · rw [dictInsert_cons_ne _ _ _ h, dictKeys_cons, List.nodup_cons]
        refine ⟨?_, ih hd.2⟩
        intro hmem
        rcases mem_dictKeys_insert.mp hmem with h1 | h1
        · exact h h1.symm
        · exact hd.1 h1

theorem dictLookup_isSome_iff_mem {α : Type} (k : Nat) (d : List (Nat × α)) :
    (dictLookup k d).isSome = true ↔ ∃ v, (k, v) ∈ d := by
  induction d with
  | nil => simp [dictLookup]
  | cons hd tl ih =>
      obtain ⟨k', v'⟩ := hd
      by_cases h : k = k'
      · subst h
        simp [dictLookup]
      · simp [dictLookup, h, ih]

/-! ### MIDI decoder claims -/

/-- Claim C1 (code bug witness): a note-on status byte with velocity 0 is decoded as a
    note-off only for the special-cased status 0x98; for status 0x90 with velocity 0
    the decoder emits no event at all, although the source's own comment on the
    dispatch branch reads a note-on with velocity = 0 (0x90 with velocity = 0) as a
    note-off, so the generic velocity-0 convention the claim states is not implemented. -/
theorem midi_callback_velocity_zero_dispatch :
    midi_callback [0x90, 60, 0] = none ∧
    midi_callback [0x91, 60, 0] = none ∧
    midi_callback [0x98, 60, 0] = some (MidiEvent.noteOff 60) := by
  decide

/-- Claim C8: with at least 3 bytes, a status in [0x90, 0x9F] with positive velocity
    decodes to NoteOn(data1, data2, status mod 16); a status in [0x80, 0x8F] decodes
    to NoteOff(data1); a status outside [0x80, 0x9F] decodes to nothing; and any
    message shorter than 3 bytes decodes to nothing. -/
theorem midi_callback_decodes (s n v : Nat) (rest : List Nat) :
    (0x90 ≤ s → s ≤ 0x9F → 0 < v →
      midi_callback (s :: n :: v :: rest) = some (MidiEvent.noteOn n v (s % 16))) ∧
    (0x80 ≤ s → s ≤ 0x8F →
      midi_callback (s :: n :: v :: rest) = some (MidiEvent.noteOff n)) ∧
    (s < 0x80 ∨ 0x9F < s → midi_callback (s :: n :: v :: rest) = none) ∧
    (∀ msg : List Nat, msg.length < 3 → midi_callback msg = none) := by
  refine ⟨?_, ?_, ?_, ?_⟩
  · intro h1 h2 hv
    rw [midi_callback, if_pos ⟨Or.inl ⟨h1, h2⟩, hv⟩]
  · intro h1 h2
    rw [midi_callback, if_neg (by omega), if_pos (Or.inl ⟨h1, h2⟩)]
  · intro h
    rw [midi_callback, if_neg (by omega), if_neg (by omega)]
  · intro msg hlen
    match msg with
    | [] => rfl
    | [_] => rfl
    | [_, _] => rfl
    | _ :: _ :: _ :: _ => simp at hlen; omega

/-- Concrete instances of C8: (0x90, 60, 64) decodes to NoteOn(60, 64, channel 0) and
    (0x98, 60, 50) decodes to NoteOn(60, 50, channel 8). -/
theorem midi_callback_decodes_witness :
    (0x90 ≤ 0x90 ∧ (0x90 : Nat) ≤ 0x9F ∧ 0 < 64 ∧
      midi_callback [0x90, 60, 64] = some (MidiEvent.noteOn 60 64 0)) ∧
    midi_callback [0x98, 60, 50] = some (MidiEvent.noteOn 60 50 8) :=
  ⟨⟨by decide, by decide, by decide,
    (midi_callback_decodes 0x90 60 64 []).1 (by decide) (by decide) (by decide)⟩,
   (midi_callback_decodes 0x98 60 50 []).1 (by decide) (by decide) (by decide)⟩

/-! ### Voice allocator claims -/

/-- Claim C4: a NoteOn with positive velocity for a note that is already active, with a
    processed buffer present and a free channel acquired, issues no stop call on any
    channel (in particular not on the previously recorded one), rebinds the note to
    the newly acquired channel, leaves every other note's binding unchanged, and
    keeps the active-note table at most one entry per note. -/
theorem play_note_retrigger_replaces (st : AppState) (note velocity oldCh newCh : Nat)
    (buf : List Int) (hv : 0 < velocity)
    (hbuf : dictLookup note st.processedSounds = some buf)
    (hactive : dictLookup note st.activeNotes = some oldCh)
    (hnodup : (dictKeys st.activeNotes).Nodup) :
    (∀ c, AudioCall.stop c ∉ (play_note st note velocity (some newCh)).2.1) ∧
    dictLookup note (play_note st note velocity (some newCh)).1.activeNotes = some newCh ∧
    (∀ k, k ≠ note →
      dictLookup k (play_note st note velocity (some newCh)).1.activeNotes =
        dictLookup k st.activeNotes) ∧
    (dictKeys (play_note st note velocity (some newCh)).1.activeNotes).Nodup := by
  simp only [play_note, hbuf]
  refine ⟨?_, ?_, ?_, ?_⟩
  · intro c hc
    simp at hc
  · exact dictLookup_insert_self note newCh st.activeNotes
  · intro k hk
    exact dictLookup_insert_ne newCh st.activeNotes hk
  · exact dictKeys_insert_nodup note newCh st.activeNotes hnodup

/-- Concrete instance of C4: in demoState note 60 is active on channel 2 and has a
    buffer; retriggering it with channel 7 acquired rebinds note 60 to channel 7. -/
theorem play_note_retrigger_replaces_witness :
    0 < 100 ∧
    dictLookup 60 demoState.processedSounds = some [0] ∧
    dictLookup 60 demoState.activeNotes = some 2 ∧
    (dictKeys demoState.activeNotes).Nodup ∧
    dictLookup 60 (play_note demoState 60 100 (some 7)).1.activeNotes = some 7 :=
  ⟨by decide, by decide, by decide, by decide,
    (play_note_retrigger_replaces demoState 60 100 2 7 [0] (by decide) (by decide)
      (by decide) (by decide)).2.1⟩

/-- Claim C7: a NoteOn for a note that has a processed buffer, arriving when channel
    acquisition returns none, changes nothing: no audio call is issued, the state
    (hence the active-note table) is untouched, and the no-free-channel condition is
    reported. -/
theorem play_note_channel_exhaustion (st : AppState) (note velocity : Nat)
    (buf : List Int) (hv : 0 < velocity)
    (hbuf : dictLookup note st.processedSounds = some buf) :
    play_note st note velocity none = (st, [], AppStatus.noFreeChannels) := by
  simp only [play_note, hbuf]

/-- Concrete instance of C7 at demoState. -/
theorem play_note_channel_exhaustion_witness :
    0 < 100 ∧
    dictLookup 60 demoState.processedSounds = some [0] ∧
    play_note demoState 60 100 none = (demoState, [], AppStatus.noFreeChannels) :=
  ⟨by decide, by decide, play_note_channel_exhaustion demoState 60 100 [0] (by decide) (by decide)⟩

/-- Claim C9: on a successful NoteOn (buffer present, channel acquired) the gain set
    on the sound and used for playback is (velocity / 127) * (sliderValue / 100),
    and with the slider within its 0..100 range that master-volume factor lies in
    [0, 1]. -/
theorem play_note_gain_formula (st : AppState) (note velocity ch : Nat)
    (buf : List Int) (hv : 0 < velocity)
    (hbuf : dictLookup note st.processedSounds = some buf)
    (hslider : st.sliderValue ≤ 100) :
    (play_note st note velocity (some ch)).2.1 =
      [AudioCall.setVolume note (((velocity : ℚ) / 127) * masterVolume st.sliderValue),
       AudioCall.play ch note (((velocity : ℚ) / 127) * masterVolume st.sliderValue)] ∧
    0 ≤ masterVolume st.sliderValue ∧ masterVolume st.sliderValue ≤ 1 := by
  refine ⟨by simp only [play_note, hbuf], ?_, ?_⟩
  · unfold masterVolume
    positivity
  · unfold masterVolume
    rw [div_le_one (by norm_num)]
    exact_mod_cast hslider

/-- Concrete instance of C9: slider at 80 and velocity 127 give gain
    (127 / 127) * (80 / 100) = 4 / 5, i.e. 0.8. -/
theorem play_note_gain_formula_witness :
    0 < 127 ∧
    dictLookup 60 demoState.processedSounds = some [0] ∧
    demoState.sliderValue ≤ 100 ∧
    ((play_note demoState 60 127 (some 7)).2.1 =
      [AudioCall.setVolume 60 (((127 : ℚ) / 127) * masterVolume demoState.sliderValue),
       AudioCall.play 7 60 (((127 : ℚ) / 127) * masterVolume demoState.sliderValue)] ∧
      0 ≤ masterVolume demoState.sliderValue ∧ masterVolume demoState.sliderValue ≤ 1) ∧
    ((127 : ℚ) / 127) * masterVolume 80 = 4 / 5 :=
  ⟨by decide, by decide, by decide,
    play_note_gain_formula demoState 60 127 7 [0] (by decide) (by decide) (by decide),
    by norm_num [masterVolume]⟩

/-! ### Pitch-shift length claims -/

theorem newLength_self (L b : Nat) : newLength L b b = L := by
  unfold newLength
  rw [if_pos (le_refl b)]
  exact Nat.findGreatest_eq (by simp)

theorem newLength_lt_of_base_lt (L b n : Nat) (hL : 0 < L) (h : b < n) :
    newLength L b n < L := by
  unfold newLength
  rw [if_pos h.le]
  have hPg : (Nat.findGreatest (fun m => m ^ 12 * 2 ^ (n - b) ≤ L ^ 12) L) ^ 12 *
      2 ^ (n - b) ≤ L ^ 12 :=
    Nat.findGreatest_spec (P := fun m => m ^ 12 * 2 ^ (n - b) ≤ L ^ 12) (m := 0)
      (Nat.zero_le L) (by simp)
  have hgle := Nat.findGreatest_le (P := fun m => m ^ 12 * 2 ^ (n - b) ≤ L ^ 12) L
  rcases lt_or_eq_of_le hgle with hlt | heq
  · exact hlt
  · exfalso
    rw [heq] at hPg
    have h2 : 2 ≤ 2 ^ (n - b) := by
      have h1 : 1 ≤ n - b := by omega
      calc 2 = 2 ^ 1 := by norm_num
        _ ≤ 2 ^ (n - b) := Nat.pow_le_pow_right (by norm_num) h1
    have hLp : 0 < L ^ 12 := pow_pos hL 12
    have hmul : L ^ 12 * 2 ≤ L ^ 12 * 2 ^ (n - b) := Nat.mul_le_mul_left _ h2
    omega

theorem newLength_ge_of_lt_base (L b n : Nat) (h : n < b) : L ≤ newLength L b n := by
  unfold newLength
  rw [if_neg (by omega)]
  apply Nat.le_findGreatest
  · calc L = L * 1 := (Nat.mul_one L).symm
      _ ≤ L * 2 ^ ((b - n) / 12 + 1) := Nat.mul_le_mul_left _ Nat.one_le_two_pow
  · calc L ^ 12 = L ^ 12 * 1 := (Nat.mul_one _).symm
      _ ≤ L ^ 12 * 2 ^ (b - n) := Nat.mul_le_mul_left _ Nat.one_le_two_pow

/-- Claim C5 (amended): for a non-empty base sample and any resampler that honours the
    requested output length, the buffer for the base note itself has exactly the
    input length; a buffer for a higher note is strictly shorter; a buffer for a
    lower note is at least as long as the input, but not always strictly longer. -/
theorem processNote_length_trichotomy (resample : List ℚ → Nat → List ℚ)
    (hres : ∀ l k, (resample l k).length = k) (s : List ℚ) (hs : s ≠ []) (b n : Nat) :
    (n = b → (processNote resample s b n).length = s.length) ∧
    (b < n → (processNote resample s b n).length < s.length) ∧
    (n < b → s.length ≤ (processNote resample s b n).length) := by
  have hlen : (processNote resample s b n).length = newLength s.length b n := by
    simp [processNote, hres]
  have hL : 0 < s.length := List.length_pos.mpr hs
  refine ⟨?_, ?_, ?_⟩
  · rintro rfl
    rw [hlen, newLength_self]
  · intro h
    rw [hlen]
    exact newLength_lt_of_base_lt _ _ _ hL h
  · intro h
    rw [hlen]
    exact newLength_ge_of_lt_base _ _ _ h

/-- Concrete instance of C5 (amended): one octave above base note 60, a ten-sample
    buffer shrinks strictly (to five samples). -/
theorem processNote_length_trichotomy_witness :
    tenSamples ≠ [] ∧ (60 : Nat) < 72 ∧
    (processNote resampleZero tenSamples 60 72).length < tenSamples.length :=
  ⟨by decide, by decide,
    (processNote_length_trichotomy resampleZero (fun l k => by simp [resampleZero])
      tenSamples (by decide) 60 72).2.1 (by decide)⟩

/-- Claim C5 (counterexample to the strict form): for note 59, one semitone below base
    note 60, a ten-sample input yields int(10 / 2 ^ (-1/12)) = int(10.594...) = 10
    samples, so the buffer for a lower note is not strictly longer than the input. -/
theorem processNote_lower_note_not_strictly_longer :
    (59 : Nat) < 60 ∧ tenSamples ≠ [] ∧
    ¬ tenSamples.length < (processNote resampleZero tenSamples 60 59).length := by
  decide

/-! ### Note buffer cache claims -/

/-- Claim C6: after processing with a valid range and a loaded base sample, the cache
    holds an entry for a note exactly when the note lies in the closed range and its
    sound construction succeeded — whatever the cache held before (prior is
    universally quantified and absent from the right-hand side, so previous contents
    are fully replaced and no key outside the range survives). -/
theorem process_sample_cache_keys (resample : List ℚ → Nat → List ℚ) (soundOk : Nat → Bool)
    (prior : List (Nat × List Int)) (s : List ℚ) (baseNote minNote maxNote : Nat)
    (hrange : minNote ≤ maxNote) (k : Nat) :
    (dictLookup k (process_sample resample soundOk prior (some s)
        baseNote minNote maxNote).1).isSome = true ↔
      minNote ≤ k ∧ k ≤ maxNote ∧ soundOk k = true := by
  rw [dictLookup_isSome_iff_mem]
  simp only [process_sample, List.mem_filterMap, List.mem_map, List.mem_range]
  constructor
  · rintro ⟨v, a, ⟨i, hi, rfl⟩, hfa⟩
    by_cases hok : soundOk (minNote + i) = true
    · rw [if_pos hok] at hfa
      obtain ⟨hk, hv⟩ := Prod.mk.injEq .. ▸ Option.some.injEq .. ▸ hfa
      refine ⟨by omega, by omega, by rw [← hk]; exact hok⟩
    · rw [if_neg hok] at hfa
      exact absurd hfa (by simp)
  · rintro ⟨h1, h2, hok⟩
    exact ⟨processNote resample s baseNote k,
      k, ⟨k - minNote, by omega, by omega⟩, by rw [if_pos hok]⟩

/-- Concrete instance of C6: processing the single-note range [60, 60] on a one-sample
    waveform caches note 60, even though the prior cache held only note 5. -/
theorem process_sample_cache_keys_witness :
    (60 : Nat) ≤ 60 ∧
    (dictLookup 60 (process_sample resampleZero (fun _ => true) [(5, [])]
        (some [(1 : ℚ)]) 60 60 60).1).isSome = true :=
  ⟨by decide,
    (process_sample_cache_keys resampleZero (fun _ => true) [(5, [])] [(1 : ℚ)]
      60 60 60 (by decide) 60).mpr (by decide)⟩

/-- Claim C3 (amended): invoking process_sample with minNote > maxNote does not fail
    and does not preserve the previous cache; the clear() that runs first discards the
    prior contents, the note loop is empty, and the call completes reporting zero
    processed notes with an empty cache. -/
theorem process_sample_invalid_range_empty (resample : List ℚ → Nat → List ℚ)
    (soundOk : Nat → Bool) (prior : List (Nat × List Int)) (s : List ℚ)
    (baseNote minNote maxNote : Nat) (hrange : maxNote < minNote) :
    process_sample resample soundOk prior (some s) baseNote minNote maxNote =
      ([], AppStatus.processed 0 minNote maxNote) := by
  have h0 : maxNote + 1 - minNote = 0 := by omega
  simp [process_sample, h0]

/-- Concrete instance of the amended C3. -/
theorem process_sample_invalid_range_empty_witness :
    (60 : Nat) < 61 ∧
    process_sample resampleZero (fun _ => true) [(60, [(7 : Int)])] (some [(1 : ℚ)])
        60 61 60 = ([], AppStatus.processed 0 61 60) :=
  ⟨by decide,
    process_sample_invalid_range_empty resampleZero (fun _ => true) [(60, [(7 : Int)])]
      [(1 : ℚ)] 60 61 60 (by decide)⟩

/-- Claim C3 (counterexample to the stated form): with a prior cache holding note 60
    and an invalid range minNote = 61 > maxNote = 60, the resulting cache is not the
    prior cache — the entry for note 60 is gone. -/
theorem process_sample_invalid_range_clears :
    (60 : Nat) < 61 ∧
    (process_sample resampleZero (fun _ => true) [(60, [(7 : Int)])] (some [(1 : ℚ)])
        60 61 60).1 ≠ [(60, [(7 : Int)])] ∧
    dictLookup 60 (process_sample resampleZero (fun _ => true) [(60, [(7 : Int)])]
        (some [(1 : ℚ)]) 60 61 60).1 = none := by
  decide

/-! ### Int16 conversion claims -/

theorem ratFloor_eq (q : ℚ) : q.floor = ⌊q⌋ := by
  rw [Rat.floor_def', Rat.floor_def]

theorem ratTrunc_eq (q : ℚ) : ratTrunc q = if 0 ≤ q then ⌊q⌋ else -⌊-q⌋ := by
  unfold ratTrunc
  rw [ratFloor_eq, ratFloor_eq]

theorem ratTrunc_bounds {q : ℚ} {B : Int} (hB : 0 ≤ B) (h1 : -(B : ℚ) ≤ q)
    (h2 : q ≤ (B : ℚ)) : -B ≤ ratTrunc q ∧ ratTrunc q ≤ B := by
  rw [ratTrunc_eq]
  split_ifs with h0
  · have hl : (0 : Int) ≤ ⌊q⌋ := Int.floor_nonneg.mpr h0
    have hu : ⌊q⌋ ≤ B := by
      have := Int.floor_le_floor h2
      rwa [Int.floor_intCast] at this
    omega
  · push_neg at h0
    have hq : (0 : ℚ) ≤ -q := by linarith
    have hub : -q ≤ (B : ℚ) := by linarith
    have h3 : (0 : Int) ≤ ⌊-q⌋ := Int.floor_nonneg.mpr hq
    have h4 : ⌊-q⌋ ≤ B := by
      have := Int.floor_le_floor hub
      rwa [Int.floor_intCast] at this
    omega

/-- Claim C2 (amended): for sample values within the normalized range |x| <= 1 the
    stored integer np.int16(x * 32767) coincides with the clamp the spec asserts;
    the difference only shows on resampling overshoot beyond the unit range. -/
theorem toInt16np_eq_specClamp_in_range (x : ℚ) (h1 : -1 ≤ x) (h2 : x ≤ 1) :
    toInt16np x = specClamp x := by
  have hq1 : -((32767 : Int) : ℚ) ≤ x * 32767 := by push_cast; nlinarith
  have hq2 : x * 32767 ≤ ((32767 : Int) : ℚ) := by push_cast; nlinarith
  obtain ⟨hl, hu⟩ := ratTrunc_bounds (by norm_num) hq1 hq2
  unfold toInt16np specClamp int16wrap
  omega

/-- Concrete instance of the amended C2 at the in-range value one half. -/
theorem toInt16np_eq_specClamp_in_range_witness :
    (-1 : ℚ) ≤ 1 / 2 ∧ (1 / 2 : ℚ) ≤ 1 ∧ toInt16np (1 / 2) = specClamp (1 / 2) :=
  ⟨by norm_num, by norm_num, toInt16np_eq_specClamp_in_range (1 / 2) (by norm_num) (by norm_num)⟩

/-- Claim C2 (counterexample to the stated form): an overshoot sample of 1.1 processed
    through the per-note pipeline stores -29493 — the value wraps around the 16-bit
    range instead of saturating at 32767 as the claim states (trunc(1.1 * 32767) =
    36043, and 36043 - 65536 = -29493). -/
theorem processNote_overshoot_wraps :
    processNote resampleOver [(1 : ℚ)] 60 60 = [-29493] ∧
    specClamp (11 / 10) = 32767 ∧
    toInt16np (11 / 10) ≠ specClamp (11 / 10) := by
  have hmul : (11 / 10 : ℚ) * 32767 = ((360437 : Int) : ℚ) / ((10 : Nat) : ℚ) := by
    push_cast
    norm_num
  have htr : ratTrunc ((11 / 10 : ℚ) * 32767) = 36043 := by
    rw [hmul, ratTrunc_eq, if_pos (by positivity), Rat.floor_intCast_div_natCast]
    decide
  have hti : toInt16np (11 / 10) = -29493 := by
    rw [toInt16np, htr]
    decide
  have hsc : specClamp (11 / 10) = 32767 := by
    rw [specClamp, htr]
    decide
  refine ⟨?_, hsc, by rw [hti, hsc]; decide⟩
  have hpn : processNote resampleOver [(1 : ℚ)] 60 60 = [toInt16np (11 / 10)] := by
    simp [processNote, resampleOver, newLength_self]
  rw [hpn, hti]

/-! ### Sample loading claims -/

theorem audioPeak_cons (a : ℚ) (l : List ℚ) : audioPeak (a :: l) = max |a| (audioPeak l) := rfl

theorem abs_le_audioPeak {x : ℚ} {audio : List ℚ} (hx : x ∈ audio) : |x| ≤ audioPeak audio := by
  induction audio with
  | nil => cases hx
  | cons a l ih =>
      rw [audioPeak_cons]
      rcases List.mem_cons.mp hx with rfl | h
      · exact le_max_left _ _
      · exact le_trans (ih h) (le_max_right _ _)

theorem audioPeak_map_div (audio : List ℚ) {p : ℚ} (hp : 0 < p) :
    audioPeak (audio.map (fun x => x / p)) = audioPeak audio / p := by
  induction audio with
  | nil => simp [audioPeak]
  | cons a l ih =>
      rw [List.map_cons, audioPeak_cons, audioPeak_cons, ih]
      rw [abs_div, abs_of_pos hp, max_div_div_right hp.le]

theorem audioPeak_eq_zero {audio : List ℚ} (h : ∀ x ∈ audio, x = 0) : audioPeak audio = 0 := by
  induction audio with
  | nil => rfl
  | cons a l ih =>
      rw [audioPeak_cons, h a (List.mem_cons_self a l), abs_zero,
        ih (fun x hx => h x (List.mem_cons_of_mem a hx))]
      simp

/-- Claim C10: the normalization of load_sample divides by the peak with no zero
    guard; whenever the waveform has a nonzero sample the peak is positive and the
    normalized waveform has peak exactly 1 (the invariant holds), while for an
    all-zero waveform the divisor np.max(np.abs(audio_data)) is 0, so the invariant
    is only guaranteed under the nonzero-peak precondition. -/
theorem load_sample_peak_normalization (audio : List ℚ) :
    ((∃ x ∈ audio, x ≠ 0) → 0 < audioPeak audio ∧ audioPeak (load_sample audio) = 1) ∧
    ((∀ x ∈ audio, x = 0) → audioPeak audio = 0) := by
  constructor
  · rintro ⟨x, hx, hx0⟩
    have hpos : 0 < audioPeak audio := lt_of_lt_of_le (abs_pos.mpr hx0) (abs_le_audioPeak hx)
    refine ⟨hpos, ?_⟩
    rw [load_sample, audioPeak_map_div audio hpos, div_self hpos.ne']
  · exact audioPeak_eq_zero

/-- Concrete instance of C10: the one-sample waveform [1/2] normalizes to peak 1. -/
theorem load_sample_peak_normalization_witness :
    (∃ x ∈ [(1 : ℚ) / 2], x ≠ 0) ∧
    (0 < audioPeak [(1 : ℚ) / 2] ∧ audioPeak (load_sample [(1 : ℚ) / 2]) = 1) :=
  ⟨⟨1 / 2, by simp, by norm_num⟩,
    (load_sample_peak_normalization [(1 : ℚ) / 2]).1 ⟨1 / 2, by simp, by norm_num⟩⟩
